import Mathlib

/-!
Shallow embedding of `ScreenToImageKit` (nirzaf/ScreenToImageKit) for
checking its natural-language specification against the code.

Each section embeds the part of one Python module that the corresponding
claims are about:

* `ImageAnalysis` — `services/image_analysis_service.py`, `_format_description`.
* `Imaging` — `utils/imaging.py`, the `_background_task` closure of
  `ImageHandler._process_image_async`.
* `ImageKitService` — `services/imagekit_service.py`, `upload_file`.
* `DrawingTools` — `ui/drawing_tools.py`, the `DrawingCanvas` state and its
  operations (`undo`, `paste`, `_end_drawing`, `_clone_element`) together
  with the event bindings of `_bind_events`.
* `Preview` — `ui/preview_window.py`, the raster-effect branches
  (PIXELATE / GRAYSCALE) of `PreviewWindow._save_image`.

Python lists used as stacks (`undo_stack`, `redo_stack`) are embedded with
the stack top at the HEAD of the Lean list (Python appends/pops at the end;
the embedding reverses the orientation uniformly, which preserves all
push/pop behaviour). Python object identity is embedded by an explicit
`id : Nat` field allocated from a counter, and the mutable `points` list of
a drawing element by a reference `pointsRef : Nat` into an explicit store.
-/

namespace ImageAnalysis

/-- A character kept by the regex `[^a-zA-Z0-9_]` of `_format_description`
(every other character is replaced by an underscore). -/
def isWordChar (c : Char) : Bool :=
  (('a' ≤ c && c ≤ 'z') || ('A' ≤ c && c ≤ 'Z') || ('0' ≤ c && c ≤ '9') || c = '_')

/-- `re.sub(r'[^a-zA-Z0-9_]', '_', s)` on a list of characters. -/
def subInvalid (s : List Char) : List Char :=
  s.map (fun c => if isWordChar c then c else '_')

/-- `re.sub(r'_+', '_', s)`: collapse every run of underscores to one
(an underscore head is merged with an underscore head of the collapsed
tail). -/
def collapseUnderscores : List Char → List Char
  | [] => []
  | c :: rest =>
      if c = '_' then
        match collapseUnderscores rest with
        | d :: tail => if d = '_' then d :: tail else '_' :: d :: tail
        | [] => ['_']
      else c :: collapseUnderscores rest

/-- The `while len(clean_desc) < target_min and padding_words:` loop of
`_format_description`: pop words off the front of the padding list and
append `_word` until the description reaches `target_min` characters. -/
def padWords (target_min : Nat) : List Char → List String → List Char
  | desc, [] => desc
  | desc, w :: ws =>
      if desc.length < target_min then
        padWords target_min (desc ++ ('_' :: w.toList)) ws
      else desc

/-- `str.rfind('_')` embedded on a list of characters: the greatest index
holding `'_'`, or `-1` when there is none (an underscore in the tail sits
later than the head, so its index wins). -/
def rfindUnderscore : List Char → Int
  | [] => -1
  | c :: rest =>
      let r := rfindUnderscore rest
      if 0 ≤ r then r + 1
      else if c = '_' then 0 else -1

/-- The description-length adjustment of `_format_description`: pad with
`["screenshot", "image", "capture"]` when shorter than `target_min`,
truncate to `target_max` (backing up to the last underscore when that
underscore sits past `target_min`) when longer. -/
def adjustLength (target_min target_max : Nat) (desc : List Char) : List Char :=
  if desc.length < target_min then
    padWords target_min desc ["screenshot", "image", "capture"]
  else if desc.length > target_max then
    if rfindUnderscore (desc.take target_max) > (target_min : Int) then
      (desc.take target_max).take (rfindUnderscore (desc.take target_max)).toNat
    else desc.take target_max
  else desc

/-- `ImageAnalysisService._format_description`, embedded on lists of
characters. `current_time` stands for `datetime.now().strftime("%H%M")`,
supplied as a parameter. The steps follow the source: lowercase, replace
every character outside `[a-zA-Z0-9_]` with `_`, collapse repeated
underscores, adjust the length into the 25–35 band (`target_min = 30 - 5`,
`target_max = 40 - 5`), then append `_HHMM`. -/
def formatDescription (current_time : List Char) (description : List Char) : List Char :=
  adjustLength 25 35 (collapseUnderscores (subInvalid (description.map Char.toLower))) ++
    ('_' :: current_time)

/-- A lowercase-letter, digit, or underscore character (the alphabet the
spec allows in generated filenames). -/
def isCleanChar (c : Char) : Bool :=
  (('a' ≤ c && c ≤ 'z') || ('0' ≤ c && c ≤ '9') || c = '_')

/-- Two adjacent underscores occur somewhere in the string. -/
def hasDoubleUnderscore : List Char → Bool
  | '_' :: '_' :: _ => true
  | _ :: rest => hasDoubleUnderscore rest
  | [] => false

end ImageAnalysis

namespace Imaging

/-- `os.path.join(directory, filename)` for a plain filename. -/
def joinPath (dir filename : String) : String :=
  dir ++ "/" ++ filename

/-- The default filename `f"screenshot_{timestamp}.png"` built by the
default-naming blocks of `_background_task`. -/
def defaultFilename (ts : Nat) : String :=
  "screenshot_" ++ toString ts ++ ".png"

/-- The AI filename `f"{description}_{timestamp}.png"`. -/
def aiFilename (description : String) (ts : Nat) : String :=
  description ++ "_" ++ toString ts ++ ".png"

/-- One run of the `_background_task` closure of
`ImageHandler._process_image_async`, as seen by that run:

* `use_gemini` — the `use_gemini` argument;
* `initialized` — `self.image_analysis.is_initialized`;
* `description` — the value `analyze_image_async` resolves to
  (`none` embeds Python `None`: timeout, empty response, or any analysis
  error, all of which `analyze_image_async` catches and turns into `None`);
* `dir` — `os.path.dirname(temp_path)`;
* `temp_path` — the captured temp path;
* `ts` — `int(time.time() * 1000)` at the renaming block that executes;
* `existsFirst` — the outcome of the `os.path.exists(temp_path)` check
  guarding the first rename the run reaches;
* `existsSecond` — the outcome of the second `os.path.exists(temp_path)`
  check, reached only when the AI branch produced a description but the
  file was gone at the first check and control fell through to the
  default-naming block. -/
structure TaskEnv where
  use_gemini : Bool
  initialized : Bool
  description : Option String
  dir : String
  temp_path : String
  ts : Nat
  existsFirst : Bool
  existsSecond : Bool
deriving DecidableEq, Repr

/-- Observable outcome of one `_background_task` run: the path the temp
file was renamed to (`none` when no rename happened) and the list of
arguments the completion callback was invoked with, in order. -/
structure RunResult where
  renamedTo : Option String
  callbacks : List String
deriving DecidableEq, Repr

/-- The `_background_task` closure of `_process_image_async`, embedded on
exception-free runs (`os.rename` succeeding whenever called; the source's
outer `except` block only fires when an OS call itself raises). Control
flow follows the source:

* `use_gemini` false or analysis service uninitialized → default-naming
  block: rename and invoke the callback only under the
  `if os.path.exists(temp_path)` guard;
* AI branch with a description → rename to the described name and invoke
  the callback only under the existence guard, `return`ing on success;
  when the file is gone at that guard, control falls through to the
  default-naming block and its own existence guard;
* AI branch without a description → default-naming block as above.

A callback argument is recorded exactly where the source executes
`callback(new_path)`; no branch of the source invokes the callback when
its existence guard fails. -/
def backgroundTask (env : TaskEnv) : RunResult :=
  if ¬ env.use_gemini ∨ ¬ env.initialized then
    if env.existsFirst then
      let new_path := joinPath env.dir (defaultFilename env.ts)
      { renamedTo := some new_path, callbacks := [new_path] }
    else { renamedTo := none, callbacks := [] }
  else
    match env.description with
    | some d =>
        if env.existsFirst then
          let new_path := joinPath env.dir (aiFilename d env.ts)
          { renamedTo := some new_path, callbacks := [new_path] }
        else if env.existsSecond then
          let new_path := joinPath env.dir (defaultFilename env.ts)
          { renamedTo := some new_path, callbacks := [new_path] }
        else { renamedTo := none, callbacks := [] }
    | none =>
        if env.existsFirst then
          let new_path := joinPath env.dir (defaultFilename env.ts)
          { renamedTo := some new_path, callbacks := [new_path] }
        else { renamedTo := none, callbacks := [] }

end Imaging

namespace ImageKitService

/-- Observable outcome of `ImageKitService.upload_file`: how many upload
attempts ran, how many times `time.sleep(retry_delay)` was executed
between attempts, and either the returned URL or the message of the
exception raised. -/
structure UploadRun where
  attempts : Nat
  sleeps : Nat
  outcome : Except String String
deriving Repr

/-- The aggregate message built after the retry loop:
`f"All {max_retries} upload attempts failed."`, extended with
`f" Last error: {str(last_error)}"` when `last_error` is set. -/
def aggregateMsg (max_retries : Nat) (last_error : Option String) : String :=
  "All " ++ toString max_retries ++ " upload attempts failed." ++
    (match last_error with
     | some e => " Last error: " ++ e
     | none => "")

/-- The `for attempt in range(max_retries)` loop of `upload_file`.
`attempt i` is the outcome of the `try` body on iteration `i`
(`.ok url` — the ImageKit call returned an object with a `url`, which the
source returns at once; `.error e` — any exception, which the source
catches, records as `last_error`, sleeps after unless this was the final
iteration, and continues). Recursion is on the remaining iteration count
`r`; `made` iterations have run, so the current index is `made`. -/
def uploadLoop (attempt : Nat → Except String String) (max_retries : Nat) :
    (r : Nat) → (last_error : Option String) → (made sleeps : Nat) → UploadRun
  | 0, last_error, made, sleeps =>
      { attempts := made, sleeps := sleeps,
        outcome := .error (aggregateMsg max_retries last_error) }
  | r + 1, _, made, sleeps =>
      match attempt made with
      | .ok url => { attempts := made + 1, sleeps := sleeps, outcome := .ok url }
      | .error e =>
          uploadLoop attempt max_retries r (some e) (made + 1)
            (if 0 < r then sleeps + 1 else sleeps)

/-- `ImageKitService.upload_file`, embedded over its observable effects.
`initialized` is `self.imagekit is not None`; `fileExists` is the
`os.path.exists(file_path)` precheck; `file_path` only feeds the error
message. The two early `raise` statements precede the loop; otherwise the
run is `uploadLoop` started with no attempts made. -/
def upload_file (initialized fileExists : Bool) (file_path : String)
    (attempt : Nat → Except String String) (max_retries : Nat) : UploadRun :=
  if ¬ initialized then
    { attempts := 0, sleeps := 0,
      outcome := .error "ImageKit not initialized - check your API credentials" }
  else if ¬ fileExists then
    { attempts := 0, sleeps := 0, outcome := .error ("File not found: " ++ file_path) }
  else
    uploadLoop attempt max_retries max_retries none 0 0

end ImageKitService

namespace DrawingTools

/-- The `DrawingTool` enumeration of `ui/drawing_tools.py`. -/
inductive DrawingTool
  | SELECT | RECTANGLE | ELLIPSE | LINE | ARROW | FREEHAND
  | TEXT | SPEECH_BUBBLE | COUNTER | HIGHLIGHT | PIXELATE | GRAYSCALE
deriving DecidableEq, Repr

/-- A `DrawingElement`. `id` embeds Python object identity (fresh per
constructed object). The mutable `points` list is embedded by reference:
`pointsRef` indexes into a `PointStore`, so two elements whose `pointsRef`
coincide share one mutable points list, exactly as two Python attributes
bound to the same list object do. All remaining fields are the instance
attributes set by `DrawingElement.__init__`. -/
structure DrawingElement where
  id : Nat
  tool_type : DrawingTool
  x1 : Int
  y1 : Int
  x2 : Int
  y2 : Int
  color : String
  fill : String
  width : Int
  font : String × Nat
  text : String
  angle : Int
  locked : Bool
  layer : Int
  pointsRef : Nat
  counter_value : Int
  effect_strength : Int
deriving DecidableEq, Repr

/-- The store backing every element's `points` list: reference ↦ list of
`(x, y)` points. -/
abbrev PointStore := Nat → List (Int × Int)

/-- Mutating `points.append(p)` through a reference: only the list behind
`r` changes. -/
def storeAppend (s : PointStore) (r : Nat) (p : Int × Int) : PointStore :=
  fun r' => if r' = r then s r ++ [p] else s r'

/-- Python `x or default` on an optional int argument: `None` and `0` are
falsy, so both select the default (the source's `self.x2 = x2 or x1`). -/
def pyOr (v : Option Int) (dflt : Int) : Int :=
  match v with
  | some x => if x ≠ 0 then x else dflt
  | none => dflt

/-- `DrawingElement.__init__(tool_type, x1, y1, x2=None, y2=None)`: fresh
identity `fresh`, fresh empty points list behind `freshRef`, coordinates
with the `x2 or x1` / `y2 or y1` defaulting, and the literal attribute
defaults of the source. -/
def mkElement (fresh freshRef : Nat) (tool : DrawingTool) (x1 y1 : Int)
    (x2 y2 : Option Int) : DrawingElement :=
  { id := fresh, tool_type := tool, x1 := x1, y1 := y1,
    x2 := pyOr x2 x1, y2 := pyOr y2 y1,
    color := "#000000", fill := "", width := 2, font := ("Arial", 12),
    text := "", angle := 0, locked := false, layer := 0,
    pointsRef := freshRef, counter_value := 1, effect_strength := 10 }

/-- `DrawingCanvas._clone_element`: construct
`DrawingElement(element.tool_type, element.x1, element.y1, element.x2,
element.y2)` — which re-applies the constructor's `or`-defaulting to the
coordinates and allocates a fresh points list — then copy every attribute
of the original except `x1, y1, x2, y2, tool_type` onto the clone with
`setattr`. Copying the `points` attribute rebinds the clone's points to
the ORIGINAL's list object, so the freshly allocated list is discarded and
`pointsRef` becomes the original's reference. -/
def clone_element (freshId freshRef : Nat) (e : DrawingElement) : DrawingElement :=
  let c := mkElement freshId freshRef e.tool_type e.x1 e.y1 (some e.x2) (some e.y2)
  { c with color := e.color, fill := e.fill, width := e.width, font := e.font,
           text := e.text, angle := e.angle, locked := e.locked, layer := e.layer,
           pointsRef := e.pointsRef, counter_value := e.counter_value,
           effect_strength := e.effect_strength }

/-- An entry of `undo_stack` / `redo_stack`. `("add", element)` pushed by
`_end_drawing` holds one element; `("add", new_elements)` pushed by
`paste` holds the Python LIST of pasted elements — a different object
kind, kept distinct here because `list.remove` treats it differently.
`("delete", element)` and `("modify", (fst, snd))` follow the source;
a `modify` snapshot is embedded as the full attribute record it restores
(its `id` naming the target element). -/
inductive UndoEntry
  | addOne (e : DrawingElement)
  | addMany (es : List DrawingElement)
  | deleteOne (e : DrawingElement)
  | modify (fst snd : DrawingElement)
deriving DecidableEq, Repr

/-- The `DrawingCanvas` state. Stack tops sit at the head of the Lean
lists. `nextId` / `nextRef` are the allocators embedding Python object
identity and list identity for newly constructed elements. -/
structure DrawingCanvas where
  elements : List DrawingElement
  selected_elements : List Nat
  clipboard : List DrawingElement
  undo_stack : List UndoEntry
  redo_stack : List UndoEntry
  drawing : Bool
  current_element : Option DrawingElement
  current_color : String
  current_fill : String
  current_width : Int
  nextId : Nat
  nextRef : Nat
deriving DecidableEq, Repr

/-- Remove the first element with the given identity. -/
def dropFirstById (i : Nat) : List DrawingElement → List DrawingElement
  | [] => []
  | x :: rest => if x.id = i then rest else x :: dropFirstById i rest

/-- `self.elements.remove(x)` where `x` is the payload of an `"add"` undo
entry. Python `list.remove` compares with `==`; `DrawingElement` defines
no `__eq__`, so comparison is object identity (embedded: equal `id`).
A payload that is a Python list (`addMany`) compares unequal to every
`DrawingElement` in `self.elements`, so `remove` raises `ValueError`. -/
def removeAddPayload (xs : List DrawingElement) :
    DrawingElement ⊕ List DrawingElement → Except String (List DrawingElement)
  | .inl e =>
      if xs.any (fun x => x.id = e.id) then .ok (dropFirstById e.id xs)
      else .error "ValueError: list.remove(x): x not in list"
  | .inr _ => .error "ValueError: list.remove(x): x not in list"

/-- `_restore_element_state(state)`: find the element whose identity is
`state['id']` and overwrite its attributes from the snapshot (embedded:
replace the whole record, keeping the identity). -/
def restoreElementState (xs : List DrawingElement) (snap : DrawingElement) :
    List DrawingElement :=
  xs.map (fun x => if x.id = snap.id then { snap with id := x.id } else x)

/-- `DrawingCanvas.undo`. The pop happens before the branch, so when the
`"add"` branch's `elements.remove` raises, the state left behind has the
entry already popped but `elements` and `redo_stack` untouched; the
exception message is returned as `some msg`. -/
def undo (s : DrawingCanvas) : DrawingCanvas × Option String :=
  match s.undo_stack with
  | [] => (s, none)
  | entry :: rest =>
      let s₁ := { s with undo_stack := rest }
      match entry with
      | .addOne e =>
          match removeAddPayload s₁.elements (.inl e) with
          | .ok es =>
              ({ s₁ with elements := es, redo_stack := .addOne e :: s₁.redo_stack }, none)
          | .error msg => (s₁, some msg)
      | .addMany es =>
          match removeAddPayload s₁.elements (.inr es) with
          | .ok es' =>
              ({ s₁ with elements := es', redo_stack := .addMany es :: s₁.redo_stack }, none)
          | .error msg => (s₁, some msg)
      | .deleteOne e =>
          ({ s₁ with elements := s₁.elements ++ [e],
                     redo_stack := .deleteOne e :: s₁.redo_stack }, none)
      | .modify fst snd =>
          ({ s₁ with elements := restoreElementState s₁.elements fst,
                     redo_stack := .modify snd fst :: s₁.redo_stack }, none)

/-- The `+= offset_x / offset_y` shifts `paste` applies to a pasted clone
(`offset_x = offset_y = 10`; `hasattr(new_element, 'x2')` always holds). -/
def offsetPasted (e : DrawingElement) : DrawingElement :=
  { e with x1 := e.x1 + 10, y1 := e.y1 + 10, x2 := e.x2 + 10, y2 := e.y2 + 10 }

/-- `DrawingCanvas.paste`: no-op on an empty clipboard; otherwise clone
each clipboard element (fresh identity, but sharing the clipboard
element's points list), shift it by (10, 10), extend `elements` with the
clones, and push a single `("add", new_elements)` entry holding the list
of clones. The source does NOT touch `redo_stack` here. -/
def paste (s : DrawingCanvas) : DrawingCanvas :=
  if s.clipboard.isEmpty then s
  else
    let news := s.clipboard.mapIdx (fun i e =>
      offsetPasted (clone_element (s.nextId + i) (s.nextRef + i) e))
    { s with elements := s.elements ++ news,
             undo_stack := .addMany news :: s.undo_stack,
             nextId := s.nextId + s.clipboard.length,
             nextRef := s.nextRef + s.clipboard.length }

/-- `max((e.counter_value for e in elements if e.tool_type == COUNTER),
default=0)`. -/
def maxCounterValue (es : List DrawingElement) : Int :=
  match (es.filter (fun e => e.tool_type = DrawingTool.COUNTER)).map
      (fun e => e.counter_value) with
  | [] => 0
  | v :: vs => vs.foldl max v

/-- `DrawingCanvas._end_drawing`. `dialogText` embeds the outcome of the
`TextInputDialog` for text tools (`none` = cancelled, so `dialog.text` is
`None`; `some ""` is falsy too and also discards the element). For every
other tool the element is appended unconditionally — the source contains
no check on the number of freehand points. The appended element receives
the canvas's current color and width, one `("add", element)` undo entry is
pushed, and `redo_stack` is cleared. -/
def end_drawing (s : DrawingCanvas) (dialogText : Option String) : DrawingCanvas :=
  if ¬ s.drawing then s
  else
    let s₁ := { s with drawing := false }
    match s₁.current_element with
    | none => s₁
    | some ce =>
        let finish (ce : DrawingElement) : DrawingCanvas :=
          let ce := { ce with color := s₁.current_color, width := s₁.current_width }
          { s₁ with elements := s₁.elements ++ [ce],
                    undo_stack := .addOne ce :: s₁.undo_stack,
                    redo_stack := [],
                    current_element := none }
        if ce.tool_type = DrawingTool.TEXT ∨ ce.tool_type = DrawingTool.SPEECH_BUBBLE then
          match dialogText with
          | some t => if t ≠ "" then finish { ce with text := t }
                      else { s₁ with current_element := none }
          | none => { s₁ with current_element := none }
        else if ce.tool_type = DrawingTool.COUNTER then
          finish { ce with counter_value := maxCounterValue s₁.elements + 1 }
        else finish ce

/-- `_draw_element`'s FREEHAND branch draws only when
`len(element.points) > 1` (and `PreviewWindow._save_image`'s FREEHAND
branch has the identical guard): whether a freehand element is rendered at
all. -/
def freehandRendered (store : PointStore) (e : DrawingElement) : Bool :=
  (store e.pointsRef).length > 1

/-- The names of the methods the `DrawingCanvas` class body defines
(transcribed from `ui/drawing_tools.py`). -/
def drawingCanvasMethods : List String :=
  ["__init__", "_setup_canvas", "_bind_events", "undo", "redo",
   "copy_selected", "paste", "move_selected", "rotate_selected",
   "bring_to_front", "send_to_back", "group_selected", "ungroup_selected",
   "_start_drawing", "_draw", "_end_drawing", "_update_preview",
   "_draw_shadow", "_with_alpha", "_restore_element_state", "_clone_element",
   "_add_to_selection", "_toggle_selection", "_find_element_at",
   "_is_point_in_element", "_point_to_line_distance", "_update_canvas",
   "_draw_element"]

/-- The keyboard bindings `_bind_events` installs, as
(event sequence, method the bound lambda invokes on `self`). -/
def canvasKeyBindings : List (String × String) :=
  [("<Control-z>", "undo"), ("<Control-y>", "redo"),
   ("<Control-c>", "copy_selected"), ("<Control-v>", "paste"),
   ("<Delete>", "delete_selected")]

/-- Attribute lookup for a method name on a `DrawingCanvas` instance:
found iff the class body defines it (the `tkinter.Canvas` / `tkinter.Widget`
base classes define none of the names in `canvasKeyBindings`, and the
instances carry no same-named data attributes). -/
def canvasHasMethod (name : String) : Bool :=
  drawingCanvasMethods.contains name

/-- Pressing the Delete key: Tk fires the bound lambda
`lambda e: self.delete_selected()`. Attribute lookup of
`delete_selected` on the instance fails, so the lambda raises
`AttributeError` before any canvas state is touched. (Were the method
present, the state would be whatever it computes — embedded abstractly by
returning the state unchanged with no error, a case this model proves
unreachable.) -/
def pressDeleteKey (s : DrawingCanvas) : DrawingCanvas × Option String :=
  if canvasHasMethod "delete_selected" then (s, none)
  else (s, some "AttributeError: 'DrawingCanvas' object has no attribute 'delete_selected'")

/-- Test fixture: a rectangle element as the constructor builds it. -/
def sampleElement : DrawingElement :=
  mkElement 0 0 DrawingTool.RECTANGLE 1 2 (some 3) (some 4)

/-- Test fixture: a freehand element as the constructor builds it
(`_start_drawing` with the FREEHAND tool at (1, 1)); its points live
behind reference 0. -/
def freehandSample : DrawingElement :=
  mkElement 0 0 DrawingTool.FREEHAND 1 1 none none

/-- Test fixture: the canvas state right after `DrawingCanvas.__init__`
(identity allocators started past the fixture elements). -/
def sampleCanvas : DrawingCanvas :=
  { elements := [], selected_elements := [], clipboard := [],
    undo_stack := [], redo_stack := [], drawing := false,
    current_element := none, current_color := "#000000", current_fill := "",
    current_width := 2, nextId := 1, nextRef := 1 }

/-- Test fixture: every points list empty. -/
def emptyStore : PointStore := fun _ => []

/-- Test fixture: one point (1, 2) behind reference 0. -/
def sampleStore : PointStore := fun r => if r = 0 then [(1, 2)] else []

end DrawingTools

namespace Preview

open DrawingTools

/-- A pixel (R, G, B). -/
abbrev Pix := Nat × Nat × Nat

/-- A raster image: dimensions plus a pixel function (queried only inside
the bounds). -/
structure Img where
  width : Nat
  height : Nat
  pix : Nat → Nat → Pix

/-- `Image.crop((x1, y1, x2, y2))`: an image of size
`(x2 - x1, y2 - y1)` whose pixel `(i, j)` is the source pixel at
`(x1 + i, y1 + j)` when that lies inside the source, black padding
otherwise (PIL pads out-of-bounds crops with zero). -/
def crop (im : Img) (x1 y1 x2 y2 : Int) : Img :=
  { width := (x2 - x1).toNat, height := (y2 - y1).toNat,
    pix := fun i j =>
      let xi := x1 + (i : Int)
      let yj := y1 + (j : Int)
      if 0 ≤ xi ∧ xi < (im.width : Int) ∧ 0 ≤ yj ∧ yj < (im.height : Int) then
        im.pix xi.toNat yj.toNat
      else (0, 0, 0) }

/-- `Image.resize((w, h), Image.NEAREST)`: raises `ValueError` on a
non-positive target dimension (the reason for the source's
`if all(s > 0 for s in size)` guard); otherwise nearest-neighbour
sampling. -/
def resize (im : Img) (w h : Nat) : Except String Img :=
  if w = 0 ∨ h = 0 then .error "ValueError: height and width must be > 0"
  else .ok { width := w, height := h,
             pix := fun i j => im.pix (i * im.width / w) (j * im.height / h) }

/-- `Image.paste(region, (x, y))`: overwrite the rectangle of `base`
starting at `(x, y)` with `region`'s pixels; pixels outside that
rectangle (in particular all of them when `region` is empty) keep their
base value. -/
def pasteImg (base region : Img) (x y : Int) : Img :=
  { base with pix := fun i j =>
      if x ≤ (i : Int) ∧ (i : Int) < x + (region.width : Int) ∧
         y ≤ (j : Int) ∧ (j : Int) < y + (region.height : Int) then
        region.pix ((i : Int) - x).toNat ((j : Int) - y).toNat
      else base.pix i j }

/-- `region.convert('L')` followed by pasting back into an RGB base:
ITU-R 601 luma per pixel, replicated over the channels. -/
def toGrayPix (p : Pix) : Pix :=
  let l := (p.1 * 299 + p.2.1 * 587 + p.2.2 * 114) / 1000
  (l, l, l)

/-- Apply a pixel map to every pixel of an image. -/
def mapPix (f : Pix → Pix) (im : Img) : Img :=
  { im with pix := fun i j => f (im.pix i j) }

/-- The PIXELATE and GRAYSCALE branches of `PreviewWindow._save_image`,
per element (the vector-drawing branches of `_save_image` alter other
pixels and are outside the raster claims; every other `tool_type` is the
identity here).

* PIXELATE: crop the element's box, compute
  `size = (region.width // effect_strength, region.height //
  effect_strength)` (Python floor division, `ZeroDivisionError` when the
  strength is zero), and only when both components are positive resize
  down, resize back up to `(x2 - x1, y2 - y1)`, and paste at `(x1, y1)`;
  otherwise the guard `if all(s > 0 for s in size)` skips all three
  raster calls.
* GRAYSCALE: crop the box, convert to luma, paste back at `(x1, y1)` —
  three calls that are each no-ops on an empty region. -/
def applyRasterEffect (im : Img) (e : DrawingElement) : Except String Img :=
  match e.tool_type with
  | DrawingTool.PIXELATE =>
      let region := crop im e.x1 e.y1 e.x2 e.y2
      if e.effect_strength = 0 then .error "ZeroDivisionError: integer division or modulo by zero"
      else
        let sw := Int.fdiv (region.width : Int) e.effect_strength
        let sh := Int.fdiv (region.height : Int) e.effect_strength
        if 0 < sw ∧ 0 < sh then do
          let small ← resize region sw.toNat sh.toNat
          let back ← resize small (e.x2 - e.x1).toNat (e.y2 - e.y1).toNat
          .ok (pasteImg im back e.x1 e.y1)
        else .ok im
  | DrawingTool.GRAYSCALE =>
      let region := crop im e.x1 e.y1 e.x2 e.y2
      .ok (pasteImg im (mapPix toGrayPix region) e.x1 e.y1)
  | _ => .ok im

/-- `a` and `b` are observably the same image. -/
def Img.sameAs (a b : Img) : Prop :=
  a.width = b.width ∧ a.height = b.height ∧ ∀ i j, a.pix i j = b.pix i j

end Preview


namespace ImageAnalysis

theorem char_le_iff_toNat {a b : Char} : a ≤ b ↔ a.toNat ≤ b.toNat := by
  rw [Char.le_def, UInt32.le_def, BitVec.le_def]
  rfl

theorem toLower_toNat (c : Char) :
    (Char.toLower c).toNat = if 65 ≤ c.toNat ∧ c.toNat ≤ 90 then c.toNat + 32 else c.toNat := by
  unfold Char.toLower
  split
  · next h =>
    rw [if_pos (by omega)]
    have hv : (c.toNat + 32).isValidChar := Or.inl (by omega)
    rw [Char.ofNat, dif_pos hv]
    simp [Char.ofNatAux, Char.toNat, UInt32.toNat]
  · next h =>
    rw [if_neg (by omega)]

/-- A character kept by the substitution step after lowering is lowercase,
a digit, or an underscore: `toLower` never emits `A`–`Z`. -/
theorem isCleanChar_sub_of_lower (c : Char) :
    isCleanChar (if isWordChar c.toLower then c.toLower else '_') = true := by
  have h := toLower_toNat c
  have hA : 'A'.toNat = 65 := rfl
  have hZ : 'Z'.toNat = 90 := rfl
  simp only [isWordChar, isCleanChar, char_le_iff_toNat]
  split
  · next hw =>
    simp only [Bool.or_eq_true, Bool.and_eq_true, decide_eq_true_eq, beq_iff_eq] at hw ⊢
    rcases hw with ((h1 | h2) | h3) | h4
    · left; left; exact h1
    · exfalso
      rw [hA, hZ] at h2
      by_cases hc : 65 ≤ c.toNat ∧ c.toNat ≤ 90 <;> simp [hc] at h <;> omega
    · left; right; exact h3
    · right; exact h4
  · simp [isCleanChar]

/-- Collapsing underscores only drops characters. -/
theorem mem_collapseUnderscores {c : Char} :
    ∀ {s : List Char}, c ∈ collapseUnderscores s → c ∈ s := by
  intro s
  induction s with
  | nil => simp [collapseUnderscores]
  | cons hd rest ih =>
    simp only [collapseUnderscores]
    intro hmem
    split at hmem
    · next hhd =>
      subst hhd
      rcases hcoll : collapseUnderscores rest with _ | ⟨d, tail⟩ <;> rw [hcoll] at hmem <;>
        dsimp only at hmem
      · simp at hmem
        simp [hmem]
      · by_cases hd' : d = '_'
        · rw [if_pos hd'] at hmem
          exact List.mem_cons_of_mem _ (ih (hcoll ▸ hmem))
        · rw [if_neg hd'] at hmem
          rcases List.mem_cons.mp hmem with h | h
          · simp [h]
          · exact List.mem_cons_of_mem _ (ih (hcoll ▸ h))
    · rcases List.mem_cons.mp hmem with h | h
      · simp [h]
      · exact List.mem_cons_of_mem _ (ih h)

/-- Every character of a padded description comes from the description or
from one of the padding words (with its separating underscore). -/
theorem mem_padWords {c : Char} :
    ∀ (ws : List String) (tm : Nat) (desc : List Char),
      c ∈ padWords tm desc ws → c ∈ desc ∨ ∃ w ∈ ws, c ∈ ('_' :: w.toList) := by
  intro ws
  induction ws with
  | nil => intro tm desc h; simp [padWords] at h; exact Or.inl h
  | cons w rest ih =>
    intro tm desc h
    simp only [padWords] at h
    split at h
    · rcases ih tm (desc ++ ('_' :: w.toList)) h with h' | ⟨w', hw', hc⟩
      · rcases List.mem_append.mp h' with h'' | h''
        · exact Or.inl h''
        · exact Or.inr ⟨w, List.mem_cons_self .., h''⟩
      · exact Or.inr ⟨w', List.mem_cons_of_mem _ hw', hc⟩
    · exact Or.inl h

theorem rfindUnderscore_lt (s : List Char) : rfindUnderscore s < (s.length : Int) := by
  induction s with
  | nil => simp [rfindUnderscore]
  | cons hd rest ih =>
    simp only [rfindUnderscore, List.length_cons]
    split
    · push_cast; omega
    · split <;> push_cast <;> omega

/-- The padding loop lands the description length in the 25–35 band
whenever it runs (i.e. whenever the input is shorter than 25). -/
theorem padWords_length_bounds (desc : List Char) (h : desc.length < 25) :
    25 ≤ (padWords 25 desc ["screenshot", "image", "capture"]).length ∧
      (padWords 25 desc ["screenshot", "image", "capture"]).length ≤ 35 := by
  have h₁ : ('_' :: "screenshot".toList).length = 11 := rfl
  have h₂ : ('_' :: "image".toList).length = 6 := rfl
  have h₃ : ('_' :: "capture".toList).length = 8 := rfl
  simp only [padWords]
  split_ifs <;> simp_all [List.length_append] <;> omega

/-- The length adjustment lands every description in the 25–35 band. -/
theorem adjustLength_bounds (desc : List Char) :
    25 ≤ (adjustLength 25 35 desc).length ∧ (adjustLength 25 35 desc).length ≤ 35 := by
  unfold adjustLength
  split_ifs with h1 h2 h3
  · exact padWords_length_bounds desc h1
  · have hcutlen : (desc.take 35).length = 35 := by
      simp only [List.length_take]
      omega
    have hfind := rfindUnderscore_lt (desc.take 35)
    rw [hcutlen] at hfind
    simp only [List.length_take, hcutlen]
    omega
  · simp only [List.length_take]
    omega
  · omega

/-- Every character of the length-adjusted description comes from the
input description or from a padding word. -/
theorem mem_adjustLength {c : Char} (desc : List Char)
    (h : c ∈ adjustLength 25 35 desc) :
    c ∈ desc ∨ c ∈ ('_' :: "screenshot".toList) ∨ c ∈ ('_' :: "image".toList) ∨
      c ∈ ('_' :: "capture".toList) := by
  unfold adjustLength at h
  split_ifs at h
  · rcases mem_padWords _ _ _ h with h' | ⟨w, hw, hc⟩
    · exact Or.inl h'
    · simp only [List.mem_cons, List.mem_singleton] at hw
      rcases hw with rfl | rfl | rfl | hw
      · exact Or.inr (Or.inl hc)
      · exact Or.inr (Or.inr (Or.inl hc))
      · exact Or.inr (Or.inr (Or.inr hc))
      · simp at hw
  · exact Or.inl (List.take_subset _ _ (List.take_subset _ _ h))
  · exact Or.inl (List.take_subset _ _ h)
  · exact Or.inl h

/-- C8 (amended): for every AI description string and every 4-digit time
suffix, `_format_description` produces a name containing only lowercase
letters, digits, and underscores, whose description part is clipped or
padded into the 25–35 character band before the `_HHMM` suffix is
appended, so the final name lies within the 30–40 character band. (The
claim's further conjunct — no repeated underscores in the description
part — fails: see the counterexample.) -/
theorem formatDescription_charset_and_band (t d : List Char)
    (htlen : t.length = 4) (ht : ∀ c ∈ t, isCleanChar c = true) :
    (∀ c ∈ formatDescription t d, isCleanChar c = true) ∧
      30 ≤ (formatDescription t d).length ∧ (formatDescription t d).length ≤ 40 := by
  refine ⟨?_, ?_⟩
  · intro c hc
    unfold formatDescription at hc
    rcases List.mem_append.mp hc with hc | hc
    · rcases mem_adjustLength _ hc with hc' | hc' | hc' | hc'
      · have hsub := mem_collapseUnderscores hc'
        rcases List.mem_map.mp hsub with ⟨c₀, hc₀, hfc⟩
        rcases List.mem_map.mp hc₀ with ⟨c₁, _, hlc⟩
        subst hlc
        rw [← hfc]
        exact isCleanChar_sub_of_lower c₁
      · have hw : ∀ x ∈ ('_' :: "screenshot".toList), isCleanChar x = true := by decide
        exact hw c hc'
      · have hw : ∀ x ∈ ('_' :: "image".toList), isCleanChar x = true := by decide
        exact hw c hc'
      · have hw : ∀ x ∈ ('_' :: "capture".toList), isCleanChar x = true := by decide
        exact hw c hc'
    · rcases List.mem_cons.mp hc with rfl | hc'
      · decide
      · exact ht c hc'
  · have hb := adjustLength_bounds (collapseUnderscores (subInvalid (d.map Char.toLower)))
    unfold formatDescription
    simp only [List.length_append, List.length_cons, htlen]
    omega

/-- C8 counterexample: on the input `"Hi!"` the cleaned description ends
with an underscore, and the padding loop appends `_screenshot`, so the
description part (and the final name) contains a doubled underscore —
refuting the claim that repeated underscores never survive sanitization. -/
theorem formatDescription_double_underscore_cex :
    hasDoubleUnderscore
        (adjustLength 25 35 (collapseUnderscores (subInvalid (("Hi!".toList).map Char.toLower))))
        = true ∧
      hasDoubleUnderscore (formatDescription ("1234".toList) ("Hi!".toList)) = true ∧
      formatDescription ("1234".toList) ("Hi!".toList)
        = "hi__screenshot_image_capture_1234".toList := by
  refine ⟨by decide, by decide, by decide⟩

/-- Witness for C8's amended theorem at the spec's own example input
`"Login Page!! Dark Mode"` with time suffix `1234`. -/
theorem formatDescription_charset_and_band_witness :
    (∀ c ∈ formatDescription ("1234".toList) ("Login Page!! Dark Mode".toList),
        isCleanChar c = true) ∧
      30 ≤ (formatDescription ("1234".toList) ("Login Page!! Dark Mode".toList)).length ∧
      (formatDescription ("1234".toList) ("Login Page!! Dark Mode".toList)).length ≤ 40 :=
  formatDescription_charset_and_band _ _ (by decide) (by decide)

end ImageAnalysis

namespace Imaging

/-- C1 counterexample: in a run whose temp file is already gone at the
existence check immediately before the rename (here: AI disabled, default
naming), the rename is skipped AND the callback is never invoked — it is
not invoked with the original path as the claim states, and it is not
invoked exactly once. -/
theorem backgroundTask_missing_file_no_callback_cex :
    (backgroundTask
        { use_gemini := false, initialized := false, description := none,
          dir := "/tmp", temp_path := "/tmp/temp_screenshot.png",
          ts := 1700000000000, existsFirst := false, existsSecond := false }).callbacks
        = [] ∧
      (backgroundTask
        { use_gemini := false, initialized := false, description := none,
          dir := "/tmp", temp_path := "/tmp/temp_screenshot.png",
          ts := 1700000000000, existsFirst := false, existsSecond := false }).callbacks
        ≠ ["/tmp/temp_screenshot.png"] ∧
      (backgroundTask
        { use_gemini := false, initialized := false, description := none,
          dir := "/tmp", temp_path := "/tmp/temp_screenshot.png",
          ts := 1700000000000, existsFirst := false, existsSecond := false }).renamedTo
        = none := by
  refine ⟨by decide, by decide, by decide⟩

/-- C1 (amended): the completion callback is invoked AT MOST once per run;
whenever the stage renames the file, the single invocation carries exactly
the renamed path; and when no rename happens (the temp file missing at
every existence check the run reaches), the callback is not invoked at
all — in particular it is NOT invoked with the original path. -/
theorem backgroundTask_callback_discipline (env : TaskEnv) :
    (backgroundTask env).callbacks.length ≤ 1 ∧
      (∀ p, (backgroundTask env).renamedTo = some p →
        (backgroundTask env).callbacks = [p]) ∧
      ((backgroundTask env).renamedTo = none → (backgroundTask env).callbacks = []) := by
  rcases env with ⟨ug, ini, desc, dir, tp, ts, e1, e2⟩
  simp only [backgroundTask]
  rcases desc with _ | d <;> split_ifs <;>
    simp_all

/-- Witness for C1's amended theorem: a run with the file present renames
to the default name and invokes the callback exactly once with it. -/
theorem backgroundTask_callback_discipline_witness :
    (backgroundTask
        { use_gemini := false, initialized := false, description := none,
          dir := "/tmp", temp_path := "/tmp/temp_screenshot.png",
          ts := 123, existsFirst := true, existsSecond := true }).callbacks
      = ["/tmp/screenshot_123.png"] :=
  (backgroundTask_callback_discipline _).2.1 _ (by decide)

/-- C7: whenever AI naming is skipped or yields no description
(`use_gemini` false, the analysis service uninitialized, or no response
within the timeout — all of which surface as `description = none` or the
skip branch), and the temp file is present at the guarded check, the stage
renames to `screenshot_<timestamp>.png` in the temp file's directory and
invokes the completion callback exactly once with that path. -/
theorem backgroundTask_default_naming (env : TaskEnv)
    (hskip : env.use_gemini = false ∨ env.initialized = false ∨ env.description = none)
    (hex : env.existsFirst = true) :
    backgroundTask env =
      { renamedTo := some (joinPath env.dir (defaultFilename env.ts)),
        callbacks := [joinPath env.dir (defaultFilename env.ts)] } := by
  rcases env with ⟨ug, ini, desc, dir, tp, ts, e1, e2⟩
  simp only at hskip hex
  simp only [backgroundTask]
  subst hex
  rcases desc with _ | d <;> rcases hskip with h | h | h <;> simp_all

/-- Witness for C7 at a concrete run: AI initialized but the analysis
timed out (no description); the file exists at the check. -/
theorem backgroundTask_default_naming_witness :
    backgroundTask
        { use_gemini := true, initialized := true, description := none,
          dir := "/shots", temp_path := "/shots/temp.png",
          ts := 99, existsFirst := true, existsSecond := false } =
      { renamedTo := some "/shots/screenshot_99.png",
        callbacks := ["/shots/screenshot_99.png"] } := by
  rw [backgroundTask_default_naming _ (Or.inr (Or.inr rfl)) rfl]
  rfl

end Imaging

namespace ImageKitService

/-- When every attempt fails, the retry loop runs all remaining
iterations, sleeps between consecutive attempts only, and aggregates the
last error. -/
theorem uploadLoop_allFail (attempt : Nat → Except String String)
    (n : Nat) (es : Nat → String) :
    ∀ (r made sleeps : Nat) (last : Option String),
      (∀ i, i < r → attempt (made + i) = .error (es (made + i))) →
      uploadLoop attempt n r last made sleeps =
        { attempts := made + r,
          sleeps := sleeps + (r - 1),
          outcome := .error (aggregateMsg n
            (if r = 0 then last else some (es (made + r - 1)))) } := by
  intro r
  induction r with
  | zero => intro made sleeps last _; simp [uploadLoop]
  | succ r' ih =>
    intro made sleeps last hfail
    have h0 : attempt made = .error (es made) := by
      have := hfail 0 (Nat.succ_pos r')
      simpa using this
    simp only [uploadLoop, h0]
    have hrec := ih (made + 1) (if 0 < r' then sleeps + 1 else sleeps) (some (es made))
      (fun i hi => by
        have h1 := hfail (i + 1) (Nat.succ_lt_succ hi)
        have h2 : made + 1 + i = made + (i + 1) := by omega
        rw [h2]
        exact h1)
    rw [hrec]
    rcases Nat.eq_zero_or_pos r' with h | h
    · subst h
      simp
    · have hr' : r' ≠ 0 := Nat.pos_iff_ne_zero.mp h
      simp only [if_pos h, if_neg hr']
      have hne : ¬ (r' + 1 = 0) := by omega
      rw [if_neg hne]
      have e1 : made + 1 + r' = made + (r' + 1) := by omega
      have e2 : sleeps + 1 + (r' - 1) = sleeps + (r' + 1 - 1) := by omega
      rw [e1, e2]

/-- C6: if every upload attempt against the image host fails,
`upload_file` (with the service initialized and the file present)
performs exactly `max_retries` attempts, sleeps the fixed retry delay
exactly between consecutive attempts (`max_retries - 1` times), raises a
single aggregate failure whose message names the attempt count and the
last underlying error, and returns no URL. -/
theorem upload_file_exhausts_retries (attempt : Nat → Except String String)
    (es : Nat → String) (n : Nat) (fp : String) (hn : 0 < n)
    (hfail : ∀ i, i < n → attempt i = .error (es i)) :
    upload_file true true fp attempt n =
      { attempts := n, sleeps := n - 1,
        outcome := .error (aggregateMsg n (some (es (n - 1)))) } := by
  have hloop := uploadLoop_allFail attempt n es n 0 0 none (fun i hi => by simpa using hfail i hi)
  have hne : ¬ (n = 0) := by omega
  simp only [upload_file]
  norm_num
  rw [hloop, if_neg hne]
  simp

/-- Witness for C6: a stub that always fails with `"boom"` and
`max_retries = 3` yields exactly 3 attempts, 2 sleeps, and the aggregate
error naming the last failure. -/
theorem upload_file_exhausts_retries_witness :
    upload_file true true "shot.png" (fun _ => Except.error "boom") 3 =
      { attempts := 3, sleeps := 2,
        outcome := Except.error "All 3 upload attempts failed. Last error: boom" } := by
  rw [upload_file_exhausts_retries (fun _ => Except.error "boom") (fun _ => "boom") 3
    "shot.png" (by decide) (fun i _ => rfl)]
  rfl

end ImageKitService

namespace DrawingTools

/-- C2 counterexample: `paste` on a canvas with a nonempty redo stack
pushes an undo entry (a new user action) yet leaves the redo stack
untouched — the redo stack is not cleared, so the undo history can
branch. -/
theorem paste_keeps_redo_cex :
    (paste { sampleCanvas with clipboard := [sampleElement],
                               redo_stack := [UndoEntry.deleteOne sampleElement] }).redo_stack
        = [UndoEntry.deleteOne sampleElement] ∧
      (paste { sampleCanvas with clipboard := [sampleElement],
                                 redo_stack := [UndoEntry.deleteOne sampleElement] }).redo_stack
        ≠ [] ∧
      (paste { sampleCanvas with clipboard := [sampleElement],
                                 redo_stack := [UndoEntry.deleteOne sampleElement] }).undo_stack.length
        = 1 := by
  refine ⟨by decide, by decide, by decide⟩

/-- C2 (amended): finishing a stroke via `_end_drawing` does clear the
redo stack, but `paste` — though it pushes an undo entry — leaves the
redo stack exactly as it was, so the undo history is not strictly linear
across all mutations. -/
theorem end_drawing_clears_redo_paste_does_not :
    (∀ (s : DrawingCanvas) (ce : DrawingElement) (d : Option String),
        s.drawing = true → s.current_element = some ce →
        ce.tool_type ≠ DrawingTool.TEXT → ce.tool_type ≠ DrawingTool.SPEECH_BUBBLE →
        (end_drawing s d).redo_stack = []) ∧
      ∀ s : DrawingCanvas, (paste s).redo_stack = s.redo_stack := by
  constructor
  · intro s ce d hdraw hce ht hsb
    rcases s with ⟨els, sel, clip, us, rs, dr, cur, cc, cf, cw, ni, nr⟩
    simp only at hdraw hce
    subst hdraw
    subst hce
    simp only [end_drawing]
    norm_num
    rw [if_neg (by simp [ht, hsb])]
    split <;> rfl
  · intro s
    unfold paste
    split <;> rfl

/-- Witness for C2's amended theorem: a freehand stroke end clears a
nonempty redo stack; a paste preserves the (empty) redo stack. -/
theorem end_drawing_clears_redo_paste_does_not_witness :
    (end_drawing { sampleCanvas with drawing := true,
                                      current_element := some freehandSample,
                                      redo_stack := [UndoEntry.deleteOne sampleElement] }
        none).redo_stack = [] ∧
      (paste sampleCanvas).redo_stack = sampleCanvas.redo_stack :=
  ⟨end_drawing_clears_redo_paste_does_not.1 _ freehandSample none rfl rfl
      (by decide) (by decide),
    end_drawing_clears_redo_paste_does_not.2 sampleCanvas⟩

/-- C3 counterexample: the clone of a freehand element carries the SAME
points reference as the original, and appending a point through the
clone's reference changes the points the original reads — mutating the
clone's points does change the original's, refuting the no-shared-
container claim. -/
theorem clone_element_shares_points_cex :
    (clone_element 1 1 freehandSample).pointsRef = freehandSample.pointsRef ∧
      storeAppend sampleStore (clone_element 1 1 freehandSample).pointsRef (3, 4)
          freehandSample.pointsRef = [(1, 2), (3, 4)] ∧
      sampleStore freehandSample.pointsRef = [(1, 2)] := by
  refine ⟨by decide, by decide, by decide⟩

/-- C3 (amended): cloning gives the copy the fresh identity, preserves
the tool type, `x1`/`y1`, every non-coordinate attribute, and preserves
`x2`/`y2` whenever they are nonzero (they are re-run through the
constructor's `x2 or x1` defaulting) — but it copies the `points`
attribute by reference: clone and original share one mutable points
list, so a point appended through the clone's reference lands in the
original's points (and vice versa). -/
theorem clone_element_attributes_and_sharing (fid fref : Nat) (e : DrawingElement) :
    (clone_element fid fref e).id = fid ∧
      (clone_element fid fref e).tool_type = e.tool_type ∧
      (clone_element fid fref e).x1 = e.x1 ∧
      (clone_element fid fref e).y1 = e.y1 ∧
      (e.x2 ≠ 0 → (clone_element fid fref e).x2 = e.x2) ∧
      (e.y2 ≠ 0 → (clone_element fid fref e).y2 = e.y2) ∧
      (clone_element fid fref e).color = e.color ∧
      (clone_element fid fref e).fill = e.fill ∧
      (clone_element fid fref e).width = e.width ∧
      (clone_element fid fref e).font = e.font ∧
      (clone_element fid fref e).text = e.text ∧
      (clone_element fid fref e).angle = e.angle ∧
      (clone_element fid fref e).locked = e.locked ∧
      (clone_element fid fref e).layer = e.layer ∧
      (clone_element fid fref e).counter_value = e.counter_value ∧
      (clone_element fid fref e).effect_strength = e.effect_strength ∧
      (clone_element fid fref e).pointsRef = e.pointsRef ∧
      ∀ (store : PointStore) (p : Int × Int),
        storeAppend store (clone_element fid fref e).pointsRef p e.pointsRef
          = store e.pointsRef ++ [p] := by
  unfold clone_element mkElement pyOr
  refine ⟨rfl, rfl, rfl, rfl, ?_, ?_, rfl, rfl, rfl, rfl, rfl, rfl, rfl, rfl, rfl, rfl,
    rfl, ?_⟩
  · intro h
    simp [h]
  · intro h
    simp [h]
  · intro store p
    simp [storeAppend]

/-- Witness for C3's amended theorem at a concrete element with nonzero
coordinates and a one-point store. -/
theorem clone_element_attributes_and_sharing_witness :
    (clone_element 5 9 sampleElement).x2 = sampleElement.x2 ∧
      (clone_element 5 9 sampleElement).pointsRef = sampleElement.pointsRef ∧
      storeAppend sampleStore (clone_element 5 9 sampleElement).pointsRef (7, 8)
          sampleElement.pointsRef = sampleStore sampleElement.pointsRef ++ [(7, 8)] := by
  obtain ⟨-, -, -, -, hx2, -, -, -, -, -, -, -, -, -, -, -, href, hshare⟩ :=
    clone_element_attributes_and_sharing 5 9 sampleElement
  exact ⟨hx2 (by decide), href, hshare sampleStore (7, 8)⟩

/-- C4 counterexample: ending a freehand stroke that accumulated zero
points (at most one) does NOT discard the in-progress element — the
element list grows by one and an undo entry is pushed. -/
theorem end_drawing_short_freehand_not_discarded_cex :
    emptyStore freehandSample.pointsRef = [] ∧
      (end_drawing { sampleCanvas with drawing := true,
                                        current_element := some freehandSample }
          none).elements.length = 1 ∧
      (end_drawing { sampleCanvas with drawing := true,
                                        current_element := some freehandSample }
          none).undo_stack.length = 1 := by
  refine ⟨rfl, by decide, by decide⟩

/-- C4 (amended): `_end_drawing` contains no point-count check — a
freehand stroke with at most one accumulated point is still appended to
the element list (restyled with the canvas's current color and width)
and still pushes an undo entry; only rendering skips freehand elements
with fewer than two points (`_draw_element` and `_save_image` draw a
freehand element only when `len(points) > 1`). -/
theorem end_drawing_appends_short_freehand (s : DrawingCanvas) (ce : DrawingElement)
    (store : PointStore) (hdraw : s.drawing = true) (hce : s.current_element = some ce)
    (htool : ce.tool_type = DrawingTool.FREEHAND)
    (hpts : (store ce.pointsRef).length ≤ 1) :
    (end_drawing s none).elements
        = s.elements ++ [{ ce with color := s.current_color, width := s.current_width }] ∧
      (end_drawing s none).undo_stack
        = UndoEntry.addOne { ce with color := s.current_color, width := s.current_width }
            :: s.undo_stack ∧
      freehandRendered store ce = false := by
  rcases s with ⟨els, sel, clip, us, rs, dr, cur, cc, cf, cw, ni, nr⟩
  simp only at hdraw hce
  subst hdraw
  subst hce
  refine ⟨?_, ?_, ?_⟩
  · simp only [end_drawing]
    norm_num
    rw [if_neg (by simp [htool]), if_neg (by simp [htool])]
  · simp only [end_drawing]
    norm_num
    rw [if_neg (by simp [htool]), if_neg (by simp [htool])]
  · simp only [freehandRendered, gt_iff_lt, decide_eq_false_iff_not, not_lt]
    omega

/-- Witness for C4's amended theorem: zero-point freehand stroke on the
fresh canvas. -/
theorem end_drawing_appends_short_freehand_witness :
    (end_drawing { sampleCanvas with drawing := true,
                                      current_element := some freehandSample }
        none).elements
        = sampleCanvas.elements
            ++ [{ freehandSample with color := sampleCanvas.current_color,
                                      width := sampleCanvas.current_width }] ∧
      (end_drawing { sampleCanvas with drawing := true,
                                        current_element := some freehandSample }
          none).undo_stack
        = UndoEntry.addOne { freehandSample with color := sampleCanvas.current_color,
                                                 width := sampleCanvas.current_width }
            :: sampleCanvas.undo_stack ∧
      freehandRendered emptyStore freehandSample = false :=
  end_drawing_appends_short_freehand _ freehandSample emptyStore rfl rfl rfl
    (by decide)

/-- C5: `_bind_events` binds the Delete key to `self.delete_selected()`,
but the `DrawingCanvas` class defines no `delete_selected` method (nor do
its Tk base classes), so pressing Delete raises `AttributeError` and no
canvas state changes — the claimed `delete_selected` operation does not
exist in the code. -/
theorem delete_selected_method_missing (s : DrawingCanvas) :
    ("<Delete>", "delete_selected") ∈ canvasKeyBindings ∧
      canvasHasMethod "delete_selected" = false ∧
      pressDeleteKey s
        = (s, some "AttributeError: 'DrawingCanvas' object has no attribute 'delete_selected'") := by
  refine ⟨by decide, by decide, ?_⟩
  simp only [pressDeleteKey]
  rw [if_neg (by decide)]

/-- C10: undoing when the top undo entry is the composite `"add"` entry
pushed by `paste` raises `ValueError` — the entry's payload is the Python
list of pasted elements, which `list.remove` never finds among the
`DrawingElement` members of the element list — and the element list is
left exactly as `paste` produced it: the pasted elements are not
removed (only the already-executed pop of the undo stack survives). -/
theorem undo_after_paste_raises (s : DrawingCanvas) (c : DrawingElement)
    (cs : List DrawingElement) :
    (undo (paste { s with clipboard := c :: cs })).2
        = some "ValueError: list.remove(x): x not in list" ∧
      (undo (paste { s with clipboard := c :: cs })).1.elements
        = (paste { s with clipboard := c :: cs }).elements ∧
      (undo (paste { s with clipboard := c :: cs })).1.redo_stack
        = (paste { s with clipboard := c :: cs }).redo_stack ∧
      (undo (paste { s with clipboard := c :: cs })).1.undo_stack = s.undo_stack := by
  simp [paste, undo, removeAddPayload]

end DrawingTools

namespace Preview

open DrawingTools

/-- C9: a pixelate or grayscale element whose bounding box has zero area
(zero width or zero height) never makes the flatten step raise: the
effect application succeeds and leaves every base pixel unchanged — for
pixelate the `if all(s > 0 for s in size)` guard skips the degenerate
resize/paste calls, and for grayscale the crop/convert/paste calls are
no-ops on the empty region. -/
theorem applyRasterEffect_zero_area (im : Img) (e : DrawingElement)
    (htool : e.tool_type = DrawingTool.PIXELATE ∨ e.tool_type = DrawingTool.GRAYSCALE)
    (hx : e.x1 ≤ e.x2) (hy : e.y1 ≤ e.y2)
    (harea : (e.x2 - e.x1) * (e.y2 - e.y1) = 0)
    (hstrength : 0 < e.effect_strength) :
    ∃ out, applyRasterEffect im e = Except.ok out ∧ out.sameAs im := by
  have hzero : e.x2 - e.x1 = 0 ∨ e.y2 - e.y1 = 0 := mul_eq_zero.mp harea
  rcases htool with htool | htool
  · refine ⟨im, ?_, rfl, rfl, fun i j => rfl⟩
    simp only [applyRasterEffect, htool]
    rw [if_neg (by omega : ¬ e.effect_strength = 0), if_neg ?_]
    rintro ⟨h1, h2⟩
    rcases hzero with h0 | h0
    · rw [show ((crop im e.x1 e.y1 e.x2 e.y2).width : Int) = ((e.x2 - e.x1).toNat : Int)
          from rfl] at h1
      rw [h0] at h1
      rw [Int.toNat_zero, Int.ofNat_zero, Int.zero_fdiv] at h1
      exact lt_irrefl 0 h1
    · rw [show ((crop im e.x1 e.y1 e.x2 e.y2).height : Int) = ((e.y2 - e.y1).toNat : Int)
          from rfl] at h2
      rw [h0] at h2
      rw [Int.toNat_zero, Int.ofNat_zero, Int.zero_fdiv] at h2
      exact lt_irrefl 0 h2
  · refine ⟨pasteImg im (mapPix toGrayPix (crop im e.x1 e.y1 e.x2 e.y2)) e.x1 e.y1,
      ?_, rfl, rfl, ?_⟩
    · simp only [applyRasterEffect, htool]
    · intro i j
      dsimp only [pasteImg, mapPix, crop]
      rw [if_neg]
      rintro ⟨c1, c2, c3, c4⟩
      rcases hzero with h0 | h0 <;> omega

/-- Witness for C9: a zero-width pixelate box (x1 = x2 = 2) over a 4×4
image succeeds and leaves the image untouched. -/
theorem applyRasterEffect_zero_area_witness :
    ∃ out,
      applyRasterEffect
          { width := 4, height := 4, pix := fun _ _ => (5, 5, 5) }
          { id := 0, tool_type := DrawingTool.PIXELATE, x1 := 2, y1 := 0, x2 := 2, y2 := 3,
            color := "#000000", fill := "", width := 1, font := ("Arial", 12), text := "",
            angle := 0, locked := false, layer := 0, pointsRef := 0, counter_value := 1,
            effect_strength := 10 }
        = Except.ok out ∧
      out.sameAs { width := 4, height := 4, pix := fun _ _ => (5, 5, 5) } :=
  applyRasterEffect_zero_area _ _ (Or.inl rfl) (by decide) (by decide) (by decide) (by decide)

end Preview
